import Mathlib

/-!
Verification of the jewelry cost-estimation core: slab resolution, the
price-breakdown calculator and the settings synchronizer, embedded from
the TypeScript sources (`src/components/CalculatorView.tsx`,
`src/hooks/useSyncFromSheet.ts`, the `useProducts` pricing hook and the
shared types in `src/lib/types.ts`).

Numbers are modelled by `JsNum`: exact rational arithmetic extended with
the `NaN` value of ECMAScript numbers.  Arithmetic on `NaN` propagates it
and every comparison involving `NaN` is false, as in JavaScript.  Exact
rationals stand in for IEEE-754 doubles; the pricing formulas use only
`+`, `*`, `/`, `max`, `Math.round` and comparisons, whose JavaScript
behaviour on the magnitudes involved matches exact arithmetic.
-/

set_option autoImplicit false

/-- A JavaScript number: either NaN or an exact rational value. -/
inductive JsNum where
  | nan : JsNum
  | num : ℚ → JsNum
deriving DecidableEq, Repr

instance (n : Nat) : OfNat JsNum n := ⟨JsNum.num n⟩

/-- JavaScript addition: NaN-propagating rational addition. -/
def JsNum.add : JsNum → JsNum → JsNum
  | JsNum.num a, JsNum.num b => JsNum.num (a + b)
  | _, _ => JsNum.nan

/-- JavaScript multiplication: NaN-propagating rational multiplication. -/
def JsNum.mul : JsNum → JsNum → JsNum
  | JsNum.num a, JsNum.num b => JsNum.num (a * b)
  | _, _ => JsNum.nan

instance : Add JsNum := ⟨JsNum.add⟩

instance : Mul JsNum := ⟨JsNum.mul⟩

/-- JavaScript division.  Every division in this codebase has a divisor
that is either the literal `100` or `Math.max(1, quantity)`, so the
divisor is never the number `0`; that unreachable case is mapped to NaN. -/
def jdiv : JsNum → JsNum → JsNum
  | JsNum.num a, JsNum.num b => if b = 0 then JsNum.nan else JsNum.num (a / b)
  | _, _ => JsNum.nan

/-- JavaScript `<=`: false whenever either side is NaN. -/
def jle : JsNum → JsNum → Bool
  | JsNum.num a, JsNum.num b => decide (a ≤ b)
  | _, _ => false

/-- JavaScript `<`: false whenever either side is NaN. -/
def jlt : JsNum → JsNum → Bool
  | JsNum.num a, JsNum.num b => decide (a < b)
  | _, _ => false

/-- JavaScript `>=` (`a >= b` is `b <= a`; false on NaN). -/
def jge (a b : JsNum) : Bool := jle b a

/-- JavaScript `>` (`a > b` is `b < a`; false on NaN). -/
def jgt (a b : JsNum) : Bool := jlt b a

/-- JavaScript `Math.max`: NaN if any argument is NaN. -/
def jmax : JsNum → JsNum → JsNum
  | JsNum.num a, JsNum.num b => JsNum.num (max a b)
  | _, _ => JsNum.nan

/-- JavaScript `Math.round`: round half toward positive infinity,
i.e. `⌊x + 1/2⌋`; NaN rounds to NaN. -/
def jround : JsNum → JsNum
  | JsNum.num a => JsNum.num (⌊a + 1/2⌋ : ℤ)
  | JsNum.nan => JsNum.nan

/-- First-match lookup in a JavaScript object modelled as an
insertion-ordered association list with unique keys. -/
def rlookup {α : Type} (m : List (String × α)) (k : String) : Option α :=
  (m.find? (fun p => p.1 == k)).map (fun p => p.2)

/-- JavaScript object assignment `m[k] = v`: replace the value of an
existing key in place, otherwise append the new key at the end. -/
def rset {α : Type} (m : List (String × α)) (k : String) (v : α) :
    List (String × α) :=
  match m with
  | [] => [(k, v)]
  | p :: rest => if p.1 == k then (k, v) :: rest else p :: rset rest k v

-- ─── Data model (src/lib/types.ts) ──────────────────────────────────────────

/-- One pricing tier of a stone type (interface `Slab`). -/
structure Slab where
  code : String
  fromWeight : JsNum
  toWeight : JsNum
  pricePerCarat : JsNum
  discount : JsNum
deriving DecidableEq, Repr

/-- One entry of the derived gold-rate table (interface `GoldRate`). -/
structure GoldRate where
  purity : String
  label : String
  rate : JsNum
deriving DecidableEq, Repr

/-- A stone-catalog entry (interface `StoneType`); `type` is the literal
string union `"Diamond" | "Gemstone"`. -/
structure StoneType where
  stoneId : String
  name : String
  type : String
  clarity : String
  color : String
  slabs : List Slab
deriving DecidableEq, Repr

/-- The global pricing configuration (interface `FixedSettings`);
`purityPercentages` is a `Record<string, number>`. -/
structure FixedSettings where
  goldRate24k : JsNum
  goldRates : List GoldRate
  purityPercentages : List (String × JsNum)
  makingChargeFlat : JsNum
  makingChargePerGram : JsNum
  gstRate : JsNum
  stoneTypes : List StoneType
deriving DecidableEq, Repr

/-- One stone line item of the live calculator (interface `DiamondEntry`). -/
structure DiamondEntry where
  id : String
  stoneTypeId : String
  weight : JsNum
  quantity : JsNum
deriving DecidableEq, Repr

/-- A stone entry as stored in the products table
(interface `ProductStoneEntry`). -/
structure ProductStoneEntry where
  stoneTypeId : String
  name : String
  weight : JsNum
  quantity : JsNum
deriving DecidableEq, Repr

/-- A raw product record as stored in the database — no pricing data
(interface `ProductRecord`). -/
structure ProductRecord where
  id : String
  created_at : String
  product_name : String
  product_image_url : Option String
  purity : String
  net_gold_weight : JsNum
  stones : List ProductStoneEntry
deriving DecidableEq, Repr

/-- A stone entry after dynamic pricing
(interface `ProductStoneWithPricing`). -/
structure ProductStoneWithPricing where
  entry : ProductStoneEntry
  pricePerCarat : JsNum
  cost : JsNum
  slabCode : Option String
deriving DecidableEq, Repr

/-- A product record with all costs computed from current settings
(interface `ProductWithPricing`); the TypeScript object also spreads the
raw record's own fields, kept here in the `record` component. -/
structure ProductWithPricing where
  record : ProductRecord
  goldRate : JsNum
  goldCost : JsNum
  makingCost : JsNum
  stoneCostTotal : JsNum
  subTotal : JsNum
  gst : JsNum
  total : JsNum
  stoneDetails : List ProductStoneWithPricing
deriving DecidableEq, Repr

-- ─── Slab resolver and making charge ────────────────────────────────────────

/-- `resolveAutoSlab`, defined identically in both revisions of
`CalculatorView.tsx` and in the `useProducts` pricing hook: first slab
whose half-open per-piece-weight interval contains
`weight / Math.max(1, quantity)`; null on nonpositive weight or an empty
slab list. -/
def resolveAutoSlab (slabs : List Slab) (weight quantity : JsNum) :
    Option Slab :=
  if jle weight 0 || slabs.isEmpty then none
  else
    let pieces := jmax 1 quantity
    let perPieceWeight := jdiv weight pieces
    slabs.find? (fun sl =>
      jge perPieceWeight sl.fromWeight && jlt perPieceWeight sl.toWeight)

/-- `calculateMakingCharge` as defined identically in both revisions of
`CalculatorView.tsx` and in the `useProducts` pricing hook: zero for
nonpositive weight, the flat fee strictly below 2 grams, per-gram rate
at or above 2 grams. -/
def calculateMakingCharge (netGoldWeight flatRate perGramRate : JsNum) :
    JsNum :=
  if jle netGoldWeight 0 then 0
  else if jlt netGoldWeight 2 then flatRate
  else netGoldWeight * perGramRate

/-- The `calculateMakingCharge` variant of the step-wizard calculator
revisions (`src/unnamed/part_006` line 43 and `src/unnamed/part_005`
line 235): the flat fee applies up to AND INCLUDING 2 grams. -/
def calculateMakingChargeStep (netGoldWeight flatRate perGramRate : JsNum) :
    JsNum :=
  if jle netGoldWeight 0 then 0
  else if jle netGoldWeight 2 then flatRate
  else netGoldWeight * perGramRate

-- ─── History repricing (useProducts hook, src/unnamed/part_009) ─────────────

/-- `computePricing` from the `useProducts` hook: recompute the full
price breakdown of a stored record from current settings. -/
def computePricing (product : ProductRecord) (settings : FixedSettings) :
    ProductWithPricing :=
  let purityPercentage :=
    (rlookup settings.purityPercentages product.purity).getD 100
  let goldRate := jround (settings.goldRate24k * jdiv purityPercentage 100)
  let goldCost := product.net_gold_weight * goldRate
  let makingCost := calculateMakingCharge product.net_gold_weight
    settings.makingChargeFlat settings.makingChargePerGram
  let stoneDetails := product.stones.map (fun s =>
    let stoneType := settings.stoneTypes.find? (fun st => st.stoneId == s.stoneTypeId)
    let slabs := (stoneType.map StoneType.slabs).getD []
    let slab := resolveAutoSlab slabs s.weight s.quantity
    let pricePerCarat := (slab.map Slab.pricePerCarat).getD 0
    { entry := s
      pricePerCarat := pricePerCarat
      cost := pricePerCarat * s.weight
      slabCode := slab.map Slab.code : ProductStoneWithPricing })
  let stoneCostTotal := stoneDetails.foldl (fun sum s => sum + s.cost) 0
  let subTotal := goldCost + makingCost + stoneCostTotal
  let gst := subTotal * settings.gstRate
  let total := subTotal + gst
  { record := product
    goldRate := goldRate
    goldCost := goldCost
    makingCost := makingCost
    stoneCostTotal := stoneCostTotal
    subTotal := subTotal
    gst := gst
    total := total
    stoneDetails := stoneDetails }

-- ─── Live calculator (CalculatorView.tsx, auto-slab revision) ───────────────

/-- The fixed purity list `GOLD_PURITIES` of `CalculatorView.tsx`. -/
def GOLD_PURITIES : List String := ["24", "22", "18", "14"]

/-- `calculatedGoldRates`: the gold-rate table the live calculator
derives from `goldRate24k` and `purityPercentages` over the fixed purity
list (percentage falls back to 100 when absent). -/
def calculatedGoldRates (settings : FixedSettings) : List GoldRate :=
  GOLD_PURITIES.map (fun purityVal =>
    let percentage := (rlookup settings.purityPercentages purityVal).getD 100
    let rate := jround (settings.goldRate24k * jdiv percentage 100)
    { purity := purityVal, label := purityVal ++ "K", rate := rate })

/-- `goldRateValue`: the calculator's rate lookup in
`calculatedGoldRates`, 0 when the selected purity has no entry. -/
def goldRateValue (settings : FixedSettings) (purity : String) : JsNum :=
  ((((calculatedGoldRates settings).find?
    (fun g => g.purity == purity)).map GoldRate.rate)).getD 0

/-- `getStoneSlabs`: slab list of a stone type by id, empty when the id
dangles. -/
def getStoneSlabs (settings : FixedSettings) (stoneTypeId : String) :
    List Slab :=
  (((settings.stoneTypes.find?
    (fun s => s.stoneId == stoneTypeId)).map StoneType.slabs)).getD []

/-- The calculator's `slabInfo` projection of a resolved slab. -/
structure SlabInfo where
  code : String
  fromWeight : JsNum
  toWeight : JsNum
  pricePerCarat : JsNum
deriving DecidableEq, Repr

/-- One element of the calculator's `stoneDetails` array. -/
structure CalcStoneDetail where
  entry : DiamondEntry
  stoneType : Option StoneType
  totalCost : JsNum
  slabInfo : Option SlabInfo
deriving DecidableEq, Repr

/-- The `stoneDetails` computation of the auto-slab calculator revision
(`CalculatorView.tsx` line 2838): resolve each entry's slab and price it
at price-per-carat times total entry weight. -/
def calcStoneDetails (settings : FixedSettings) (stones : List DiamondEntry) :
    List CalcStoneDetail :=
  stones.map (fun d =>
    let stoneType := settings.stoneTypes.find? (fun s => s.stoneId == d.stoneTypeId)
    let slab := resolveAutoSlab (getStoneSlabs settings d.stoneTypeId)
      d.weight d.quantity
    let pricePerCarat := (slab.map Slab.pricePerCarat).getD 0
    let totalCost := pricePerCarat * d.weight
    { entry := d
      stoneType := stoneType
      totalCost := totalCost
      slabInfo := slab.map (fun sl =>
        { code := sl.code
          fromWeight := sl.fromWeight
          toWeight := sl.toWeight
          pricePerCarat := sl.pricePerCarat : SlabInfo }) })

/-- `totalStoneCost` of the calculator. -/
def calcTotalStoneCost (settings : FixedSettings)
    (stones : List DiamondEntry) : JsNum :=
  (calcStoneDetails settings stones).foldl (fun s d => s + d.totalCost) 0

/-- `goldCost` of the calculator. -/
def calcGoldCost (settings : FixedSettings) (purity : String)
    (netGoldWeight : JsNum) : JsNum :=
  netGoldWeight * goldRateValue settings purity

/-- `makingCost` of the calculator. -/
def calcMakingCost (settings : FixedSettings) (netGoldWeight : JsNum) :
    JsNum :=
  calculateMakingCharge netGoldWeight settings.makingChargeFlat
    settings.makingChargePerGram

/-- `goldPlusMaking` of the calculator. -/
def calcGoldPlusMaking (settings : FixedSettings) (purity : String)
    (netGoldWeight : JsNum) : JsNum :=
  calcGoldCost settings purity netGoldWeight +
    calcMakingCost settings netGoldWeight

/-- `subTotal` of the calculator. -/
def calcSubTotal (settings : FixedSettings) (purity : String)
    (netGoldWeight : JsNum) (stones : List DiamondEntry) : JsNum :=
  calcGoldPlusMaking settings purity netGoldWeight +
    calcTotalStoneCost settings stones

/-- `gst` of the calculator. -/
def calcGst (settings : FixedSettings) (purity : String)
    (netGoldWeight : JsNum) (stones : List DiamondEntry) : JsNum :=
  calcSubTotal settings purity netGoldWeight stones * settings.gstRate

/-- `total` of the calculator. -/
def calcTotal (settings : FixedSettings) (purity : String)
    (netGoldWeight : JsNum) (stones : List DiamondEntry) : JsNum :=
  calcSubTotal settings purity netGoldWeight stones +
    calcGst settings purity netGoldWeight stones

/-- The raw record the estimate store keeps for a finished calculation:
purity, net gold weight and, per stone entry, the stone-type reference,
a denormalized name snapshot (inert for pricing, taken as empty here),
total weight and quantity. -/
def recordOfInputs (purity : String) (netGoldWeight : JsNum)
    (stones : List DiamondEntry) : ProductRecord :=
  { id := ""
    created_at := ""
    product_name := ""
    product_image_url := none
    purity := purity
    net_gold_weight := netGoldWeight
    stones := stones.map (fun d =>
      { stoneTypeId := d.stoneTypeId
        name := ""
        weight := d.weight
        quantity := d.quantity : ProductStoneEntry }) }

-- ─── Settings synchronizer (src/hooks/useSyncFromSheet.ts) ──────────────────

/-- Value of a list of decimal digit characters. -/
def digitsVal (cs : List Char) : ℕ :=
  cs.foldl (fun n c => 10 * n + (c.toNat - 48)) 0

/-- Parse an optionally signed plain decimal numeral
(`[+-]? digits [. digits]`, at least one digit), the numeral grammar the
price sheet uses; anything else is rejected. -/
def decToRat? (cs : List Char) : Option ℚ :=
  let signed : ℚ × List Char :=
    match cs with
    | '+' :: r => (1, r)
    | '-' :: r => (-1, r)
    | r => (1, r)
  let sgn := signed.1
  let body := signed.2
  let intPart := body.takeWhile Char.isDigit
  let rest := body.dropWhile Char.isDigit
  match rest with
  | [] =>
    if intPart.isEmpty then none
    else some (sgn * (digitsVal intPart : ℚ))
  | '.' :: fracPart =>
    if fracPart.all Char.isDigit && !(intPart.isEmpty && fracPart.isEmpty)
    then some (sgn * ((digitsVal intPart : ℚ) +
      (digitsVal fracPart : ℚ) / (10 : ℚ) ^ fracPart.length))
    else none
  | _ => none

/-- `String.prototype.trim()`: strip whitespace from both ends
(modelled over the character list). -/
def strTrim (s : String) : String :=
  String.mk
    (((s.toList.dropWhile Char.isWhitespace).reverse.dropWhile
      Char.isWhitespace).reverse)

/-- ECMAScript `Number(string)`: the empty (or all-whitespace) string is
0, a decimal numeral is its value, anything else is NaN. -/
def jsNumber (s : String) : JsNum :=
  let t := strTrim s
  if t = "" then 0
  else
    match decToRat? t.toList with
    | some q => JsNum.num q
    | none => JsNum.nan

/-- `Number(cell ?? 0)`: a missing column or cell is 0. -/
def jsNumberOpt : Option String → JsNum
  | none => 0
  | some s => jsNumber s

/-- A parsed sheet row as produced by `csvToObjects`: cell text keyed by
lower-cased trimmed column header (a plain JavaScript object, modelled
as an association list; an absent key is a missing column). -/
def Row : Type := List (String × String)

/-- Cell access `row[header]`. -/
def Row.get? (r : Row) (k : String) : Option String :=
  rlookup r k

/-- The `purityPercentages` component of `DEFAULT_SETTINGS` in
`src/lib/types.ts` (the only part of `DEFAULT_SETTINGS` the sheet
parser reads). -/
def DEFAULT_PURITY_PERCENTAGES : List (String × JsNum) :=
  [("24", 100), ("22", 92), ("18", 76), ("14", 60)]

/-- The partial settings produced by `parseRatesTab`
(`Partial<FixedSettings>` restricted to the fields it ever sets). -/
structure RatesPart where
  goldRate24k : Option JsNum
  makingChargeFlat : Option JsNum
  makingChargePerGram : Option JsNum
  gstRate : Option JsNum
  purityPercentages : Option (List (String × JsNum))
deriving DecidableEq, Repr

/-- The key→value map the rates parser builds from rows having a truthy
`key` cell and a present `value` cell. -/
def ratesKeyValueMap (rows : List Row) : List (String × String) :=
  rows.foldl (fun m row =>
    match row.get? "key", row.get? "value" with
    | some k, some v => if k = "" then m else rset m (strTrim k) (strTrim v)
    | _, _ => m) []

/-- Does a rates key match the pattern `purity_<digits>`?  Returns the
captured digit string. -/
def purityKeyOf (key : String) : Option String :=
  let cs := key.toList
  if cs.take 7 = "purity_".toList then
    let n := cs.drop 7
    if !n.isEmpty && n.all Char.isDigit then some (String.mk n) else none
  else none

/-- `parseRatesTab`: recognized scalar keys override the corresponding
settings fields; any `purity_<N>` key overrides entry `N` of a purity
map freshly seeded from the built-in defaults. -/
def parseRatesTab (rows : List Row) : RatesPart :=
  let map := ratesKeyValueMap rows
  let purityPercentages := map.foldl (fun pp p =>
    match purityKeyOf p.1 with
    | some n => rset pp n (jsNumber p.2)
    | none => pp) DEFAULT_PURITY_PERCENTAGES
  let hasPurity := map.any (fun p => (purityKeyOf p.1).isSome)
  { goldRate24k := (rlookup map "goldRate24k").map jsNumber
    makingChargeFlat := (rlookup map "makingChargeFlat").map jsNumber
    makingChargePerGram := (rlookup map "makingChargePerGram").map jsNumber
    gstRate := (rlookup map "gstRate").map jsNumber
    purityPercentages := if hasPurity then some purityPercentages else none }

/-- A stone-catalog row without its slabs (`Omit<StoneType, "slabs">`). -/
structure StoneRow where
  stoneId : String
  name : String
  type : String
  clarity : String
  color : String
deriving DecidableEq, Repr

/-- `parseStonesTab`: every row with a truthy `stoneid` cell becomes a
catalog entry; `type` defaults to Diamond unless exactly `Gemstone`. -/
def parseStonesTab (rows : List Row) : List StoneRow :=
  (rows.filter (fun r => ((r.get? "stoneid").getD "") ≠ "")).map (fun r =>
    { stoneId := strTrim ((r.get? "stoneid").getD "")
      name := ((r.get? "name").map strTrim).getD ""
      type := if ((r.get? "type").map strTrim) = some "Gemstone"
        then "Gemstone" else "Diamond"
      clarity := ((r.get? "clarity").map strTrim).getD ""
      color := ((r.get? "color").map strTrim).getD "" })

/-- The slab a slabs-table row denotes: text fields default to empty,
numeric fields go through `Number(cell ?? 0)`. -/
def slabOfRow (r : Row) : Slab :=
  { code := ((r.get? "code").map strTrim).getD ""
    fromWeight := jsNumberOpt (r.get? "fromweight")
    toWeight := jsNumberOpt (r.get? "toweight")
    pricePerCarat := jsNumberOpt (r.get? "pricepercarat")
    discount := jsNumberOpt (r.get? "discount") }

/-- Append a slab to the slab list of a stone id, creating the list on
first use (`slabsByStone[stoneId].push(slab)`). -/
def pushSlab (m : List (String × List Slab)) (k : String) (sl : Slab) :
    List (String × List Slab) :=
  match m with
  | [] => [(k, [sl])]
  | p :: rest =>
    if p.1 == k then (p.1, p.2 ++ [sl]) :: rest else p :: pushSlab rest k sl

/-- `parseSlabsTab`: each row with a non-empty trimmed `stoneid` cell
appends its slab to that stone id's list, in row order; other rows are
skipped, and no row ever aborts the parse. -/
def parseSlabsTab (rows : List Row) : List (String × List Slab) :=
  rows.foldl (fun acc r =>
    match (r.get? "stoneid").map strTrim with
    | none => acc
    | some stoneId =>
      if stoneId = "" then acc else pushSlab acc stoneId (slabOfRow r)) []

/-- `assembleSettings`: overlay the parsed rates onto the current
settings, attach each stone id's slab list to its catalog row, keep the
existing catalog when the stones table yielded no rows, and recompute
every `goldRates` entry from the effective 24k rate and purity
percentages. -/
def assembleSettings (currentSettings : FixedSettings)
    (ratesPart : RatesPart) (stoneRows : List StoneRow)
    (slabsByStone : List (String × List Slab)) : FixedSettings :=
  let stoneTypes : List StoneType := stoneRows.map (fun s =>
    { stoneId := s.stoneId
      name := s.name
      type := s.type
      clarity := s.clarity
      color := s.color
      slabs := (rlookup slabsByStone s.stoneId).getD [] })
  { goldRate24k := ratesPart.goldRate24k.getD currentSettings.goldRate24k
    goldRates := currentSettings.goldRates.map (fun gr =>
      let purityPercentages := ratesPart.purityPercentages.getD
        currentSettings.purityPercentages
      let goldRate24k := ratesPart.goldRate24k.getD
        currentSettings.goldRate24k
      let pct := (rlookup purityPercentages gr.purity).getD 100
      { purity := gr.purity
        label := gr.label
        rate := jround (goldRate24k * jdiv pct 100) })
    purityPercentages := ratesPart.purityPercentages.getD
      currentSettings.purityPercentages
    makingChargeFlat :=
      ratesPart.makingChargeFlat.getD currentSettings.makingChargeFlat
    makingChargePerGram :=
      ratesPart.makingChargePerGram.getD currentSettings.makingChargePerGram
    gstRate := ratesPart.gstRate.getD currentSettings.gstRate
    stoneTypes := if stoneTypes.length > 0 then stoneTypes
      else currentSettings.stoneTypes }

-- ─── Shared lemmas ──────────────────────────────────────────────────────────

@[simp] theorem jsNum_ofNat (n : ℕ) :
    (OfNat.ofNat n : JsNum) = JsNum.num (OfNat.ofNat n) := rfl

@[simp] theorem num_add_num (a b : ℚ) :
    JsNum.num a + JsNum.num b = JsNum.num (a + b) := rfl

@[simp] theorem nan_add (a : JsNum) : JsNum.nan + a = JsNum.nan := rfl

@[simp] theorem add_nan (a : JsNum) : a + JsNum.nan = JsNum.nan := by
  cases a <;> rfl

@[simp] theorem num_mul_num (a b : ℚ) :
    JsNum.num a * JsNum.num b = JsNum.num (a * b) := rfl

@[simp] theorem nan_mul (a : JsNum) : JsNum.nan * a = JsNum.nan := rfl

@[simp] theorem mul_nan (a : JsNum) : a * JsNum.nan = JsNum.nan := by
  cases a <;> rfl

@[simp] theorem jdiv_num_num (a b : ℚ) :
    jdiv (JsNum.num a) (JsNum.num b) =
      if b = 0 then JsNum.nan else JsNum.num (a / b) := rfl

@[simp] theorem jle_num_num (a b : ℚ) :
    jle (JsNum.num a) (JsNum.num b) = decide (a ≤ b) := rfl

@[simp] theorem jlt_num_num (a b : ℚ) :
    jlt (JsNum.num a) (JsNum.num b) = decide (a < b) := rfl

@[simp] theorem jge_def (a b : JsNum) : jge a b = jle b a := rfl

@[simp] theorem jgt_def (a b : JsNum) : jgt a b = jlt b a := rfl

@[simp] theorem jle_nan_left (a : JsNum) : jle JsNum.nan a = false := rfl

@[simp] theorem jle_nan_right (a : JsNum) : jle a JsNum.nan = false := by
  cases a <;> rfl

@[simp] theorem jlt_nan_left (a : JsNum) : jlt JsNum.nan a = false := rfl

@[simp] theorem jlt_nan_right (a : JsNum) : jlt a JsNum.nan = false := by
  cases a <;> rfl

@[simp] theorem jmax_num_num (a b : ℚ) :
    jmax (JsNum.num a) (JsNum.num b) = JsNum.num (max a b) := rfl

@[simp] theorem jround_num (a : ℚ) :
    jround (JsNum.num a) = JsNum.num (⌊a + 1/2⌋ : ℤ) := rfl

@[simp] theorem jround_nan : jround JsNum.nan = JsNum.nan := rfl

/-- A successful linear search returns the first element satisfying the
predicate: some earlier position index, the hit itself, and failure of
the predicate on everything before it. -/
theorem find?_eq_some_first {α : Type} (p : α → Bool) (l : List α) (a : α) :
    l.find? p = some a ↔
      ∃ i, ∃ h : i < l.length, l.get ⟨i, h⟩ = a ∧ p a = true ∧
        ∀ b ∈ l.take i, p b = false := by
  induction l with
  | nil => simp
  | cons x xs ih =>
    by_cases hx : p x = true
    · rw [List.find?_cons_of_pos _ hx]
      constructor
      · intro h
        injection h with h
        subst h
        exact ⟨0, Nat.succ_pos _, rfl, hx, by simp⟩
      · rintro ⟨i, h, hget, hpa, hmin⟩
        cases i with
        | zero =>
          simp only [List.get] at hget
          subst hget
          rfl
        | succ k =>
          exact absurd hx (by simpa using hmin x (by simp))
    · rw [List.find?_cons_of_neg _ (by simpa using hx), ih]
      rw [Bool.not_eq_true] at hx
      constructor
      · rintro ⟨i, h, hget, hpa, hmin⟩
        refine ⟨i + 1, Nat.succ_lt_succ h, hget, hpa, ?_⟩
        intro b hb
        rcases (by simpa using hb : b = x ∨ b ∈ xs.take i) with rfl | hb
        · exact hx
        · exact hmin b hb
      · rintro ⟨i, h, hget, hpa, hmin⟩
        cases i with
        | zero =>
          simp only [List.get] at hget
          subst hget
          exact absurd hpa (by simp [hx])
        | succ k =>
          refine ⟨k, Nat.lt_of_succ_lt_succ h, hget, hpa, ?_⟩
          intro b hb
          exact hmin b (by simp [hb])

/-- A nonempty list is not `isEmpty`. -/
theorem isEmpty_false_of_ne_nil {α : Type} {l : List α} (h : l ≠ []) :
    l.isEmpty = false := by
  cases l with
  | nil => exact absurd rfl h
  | cons x xs => rfl

-- ─── Claim C3 ───────────────────────────────────────────────────────────────

/-- Claim C3: resolveAutoSlab returns null when the total weight is
nonpositive or the slab list is empty; otherwise, with per-piece weight
equal to the total weight divided by max(1, quantity), it returns the
first slab in list order whose half-open interval
fromWeight ≤ perPieceWeight < toWeight contains it, and null when no
slab qualifies; a nonpositive quantity gives the same result as
quantity 1. -/
theorem resolveAutoSlab_correct :
    (∀ (slabs : List Slab) (w q : JsNum),
      jle w 0 = true ∨ slabs = [] → resolveAutoSlab slabs w q = none) ∧
    (∀ (slabs : List Slab) (w q : JsNum) (sl : Slab),
      jle w 0 = false → slabs ≠ [] →
      (resolveAutoSlab slabs w q = some sl ↔
        ∃ i, ∃ h : i < slabs.length, slabs.get ⟨i, h⟩ = sl ∧
          (jle sl.fromWeight (jdiv w (jmax 1 q)) = true ∧
            jlt (jdiv w (jmax 1 q)) sl.toWeight = true) ∧
          ∀ sl2 ∈ slabs.take i,
            ¬(jle sl2.fromWeight (jdiv w (jmax 1 q)) = true ∧
              jlt (jdiv w (jmax 1 q)) sl2.toWeight = true))) ∧
    (∀ (slabs : List Slab) (w q : JsNum),
      jle w 0 = false → slabs ≠ [] →
      (resolveAutoSlab slabs w q = none ↔
        ∀ sl ∈ slabs,
          ¬(jle sl.fromWeight (jdiv w (jmax 1 q)) = true ∧
            jlt (jdiv w (jmax 1 q)) sl.toWeight = true))) ∧
    (∀ (slabs : List Slab) (w q : JsNum),
      jle q 0 = true → resolveAutoSlab slabs w q = resolveAutoSlab slabs w 1) := by
  have hmatch : ∀ (w q : JsNum) (sl : Slab),
      (jge (jdiv w (jmax 1 q)) sl.fromWeight &&
        jlt (jdiv w (jmax 1 q)) sl.toWeight) = true ↔
      (jle sl.fromWeight (jdiv w (jmax 1 q)) = true ∧
        jlt (jdiv w (jmax 1 q)) sl.toWeight = true) := by
    intro w q sl
    rw [Bool.and_eq_true]
    rfl
  have hunf : ∀ (slabs : List Slab) (w q : JsNum), jle w 0 = false →
      slabs ≠ [] → resolveAutoSlab slabs w q = slabs.find? (fun sl =>
        jge (jdiv w (jmax 1 q)) sl.fromWeight &&
          jlt (jdiv w (jmax 1 q)) sl.toWeight) := by
    intro slabs w q hw hne
    unfold resolveAutoSlab
    rw [hw, isEmpty_false_of_ne_nil hne]
    rfl
  refine ⟨?_, ?_, ?_, ?_⟩
  · intro slabs w q h
    unfold resolveAutoSlab
    rcases h with h | h
    · rw [h]
      rfl
    · subst h
      rw [List.isEmpty_nil, Bool.or_true]
      rfl
  · intro slabs w q sl hw hne
    rw [hunf slabs w q hw hne]
    rw [find?_eq_some_first]
    constructor
    · rintro ⟨i, h, hget, hpa, hmin⟩
      refine ⟨i, h, hget, (hmatch w q sl).mp hpa, ?_⟩
      intro sl2 hsl2 hc
      have := hmin sl2 hsl2
      rw [(hmatch w q sl2).mpr hc] at this
      exact Bool.noConfusion this
    · rintro ⟨i, h, hget, hpa, hmin⟩
      refine ⟨i, h, hget, (hmatch w q sl).mpr hpa, ?_⟩
      intro sl2 hsl2
      by_contra hc
      rw [Bool.not_eq_false] at hc
      exact hmin sl2 hsl2 ((hmatch w q sl2).mp hc)
  · intro slabs w q hw hne
    rw [hunf slabs w q hw hne]
    rw [List.find?_eq_none]
    constructor
    · intro hall sl hsl hc
      exact hall sl hsl ((hmatch w q sl).mpr hc)
    · intro hall sl hsl hc
      exact hall sl hsl ((hmatch w q sl).mp hc)
  · intro slabs w q hq
    have hq1 : jmax 1 q = jmax 1 1 := by
      cases q with
      | nan => simp at hq
      | num x =>
        have hx : x ≤ 0 := by simpa using hq
        show jmax (JsNum.num 1) (JsNum.num x) = jmax (JsNum.num 1) (JsNum.num 1)
        rw [jmax_num_num, jmax_num_num, max_eq_left (hx.trans zero_le_one),
          max_self]
    unfold resolveAutoSlab
    rw [hq1]

/-- Sample slab tier used to instantiate the C3 theorem. -/
def sampleSlabA : Slab :=
  ⟨"A", JsNum.num (1/10), JsNum.num (4/10), 25000, 0⟩

/-- Second sample slab tier used to instantiate the C3 theorem. -/
def sampleSlabB : Slab :=
  ⟨"B", JsNum.num (4/10), JsNum.num (6/10), 30000, 0⟩

/-- Witness for claim C3 at a concrete slab table: per-piece weight
0.5 = 1.0/2 falls in the second slab, zero total weight resolves to
none, and quantity -3 behaves as quantity 1. -/
theorem resolveAutoSlab_correct_witness :
    resolveAutoSlab [sampleSlabA, sampleSlabB] (JsNum.num 1) 2 =
      some sampleSlabB ∧
    resolveAutoSlab [sampleSlabA] (JsNum.num 0) 1 = none ∧
    resolveAutoSlab [sampleSlabA] (JsNum.num (2/10)) (JsNum.num (-3)) =
      resolveAutoSlab [sampleSlabA] (JsNum.num (2/10)) 1 := by
  refine ⟨?_, ?_, ?_⟩
  · refine (resolveAutoSlab_correct.2.1 _ _ _ _ (by simp) (by simp)).mpr
      ⟨1, by norm_num, rfl, ⟨?_, ?_⟩, ?_⟩
    · simp [sampleSlabB]
      norm_num
    · simp [sampleSlabB]
      norm_num
    · intro sl2 hsl2
      have hA : sl2 = sampleSlabA := by simpa using hsl2
      subst hA
      rintro ⟨h1, h2⟩
      exact absurd h2 (by
        simp [sampleSlabA]
        norm_num)
  · exact resolveAutoSlab_correct.1 _ _ _ (Or.inl (by simp))
  · exact resolveAutoSlab_correct.2.2.2 _ _ _ (by simp)

-- ─── Claim C4 ───────────────────────────────────────────────────────────────

/-- Claim C4 counterexample: at exactly 2 grams (weight satisfying the
claim's w ≥ 2 case) the step-wizard variant of the making charge returns
the flat fee 4000, not weight times per-gram rate 3600, so the flat-fee
boundary is not a strict less-than in every making-charge computation of
the program. -/
theorem makingCharge_step_boundary_cex :
    jge (2 : JsNum) 2 = true ∧
    calculateMakingChargeStep 2 4000 1800 = 4000 ∧
    (2 : JsNum) * 1800 = 3600 ∧
    calculateMakingChargeStep 2 4000 1800 ≠ (2 : JsNum) * 1800 := by
  refine ⟨by simp, ?_, ?_, ?_⟩
  · simp [calculateMakingChargeStep]
  · simp
    norm_num
  · simp [calculateMakingChargeStep]
    norm_num

/-- Claim C4 amended: the making charge is 0 for nonpositive weight in
every variant; the implementations in both CalculatorView revisions and
in the useProducts repricing hook charge the flat fee for 0 < w < 2 and
w times the per-gram rate for w ≥ 2 (strict boundary); the step-wizard
variants instead charge the flat fee for 0 < w ≤ 2 and the per-gram
rate only for w > 2. -/
theorem makingCharge_cases (w f g : JsNum) :
    (jle w 0 = true → calculateMakingCharge w f g = 0 ∧
      calculateMakingChargeStep w f g = 0) ∧
    (jlt 0 w = true → jlt w 2 = true → calculateMakingCharge w f g = f) ∧
    (jge w 2 = true → calculateMakingCharge w f g = w * g) ∧
    (jlt 0 w = true → jle w 2 = true → calculateMakingChargeStep w f g = f) ∧
    (jgt w 2 = true → calculateMakingChargeStep w f g = w * g) := by
  cases w with
  | nan =>
    refine ⟨?_, ?_, ?_, ?_, ?_⟩ <;> intro h <;> simp at h
  | num x =>
    refine ⟨?_, ?_, ?_, ?_, ?_⟩
    · intro h
      constructor
      · unfold calculateMakingCharge
        rw [h]
        rfl
      · unfold calculateMakingChargeStep
        rw [h]
        rfl
    · intro h1 h2
      have hx0 : (0:ℚ) < x := by simpa using h1
      have hle : jle (JsNum.num x) 0 = false := by
        simp
        linarith
      unfold calculateMakingCharge
      rw [hle, h2]
      rfl
    · intro h
      have hx : (2:ℚ) ≤ x := by simpa using h
      have hle : jle (JsNum.num x) 0 = false := by
        simp
        linarith
      have hlt : jlt (JsNum.num x) 2 = false := by
        simp
        linarith
      unfold calculateMakingCharge
      rw [hle, hlt]
      rfl
    · intro h1 h2
      have hx0 : (0:ℚ) < x := by simpa using h1
      have hle : jle (JsNum.num x) 0 = false := by
        simp
        linarith
      unfold calculateMakingChargeStep
      rw [hle, h2]
      rfl
    · intro h
      have hx : (2:ℚ) < x := by simpa using h
      have hle : jle (JsNum.num x) 0 = false := by
        simp
        linarith
      have hle2 : jle (JsNum.num x) 2 = false := by
        simp
        linarith
      unfold calculateMakingChargeStep
      rw [hle, hle2]
      rfl

/-- Witness for claim C4 at concrete weights: 1 gram takes the flat fee,
3 grams takes the per-gram rate in both variants, -1 gram charges 0. -/
theorem makingCharge_cases_witness :
    calculateMakingCharge (JsNum.num 1) 4000 1800 = 4000 ∧
    calculateMakingCharge (JsNum.num 3) 4000 1800 = JsNum.num 3 * 1800 ∧
    calculateMakingChargeStep (JsNum.num 3) 4000 1800 = JsNum.num 3 * 1800 ∧
    calculateMakingCharge (JsNum.num (-1)) 4000 1800 = 0 := by
  refine ⟨?_, ?_, ?_, ?_⟩
  · exact (makingCharge_cases (JsNum.num 1) 4000 1800).2.1 (by simp)
      (by simp)
  · exact (makingCharge_cases (JsNum.num 3) 4000 1800).2.2.1
      (by simp; norm_num)
  · exact (makingCharge_cases (JsNum.num 3) 4000 1800).2.2.2.2
      (by simp; norm_num)
  · exact ((makingCharge_cases (JsNum.num (-1)) 4000 1800).1 (by simp)).1

-- ─── Claim C1 ───────────────────────────────────────────────────────────────

/-- Concrete settings used to instantiate pricing claims: 24k rate
10000, the four standard purities, flat fee 4000, per-gram 1800,
GST 3 percent, empty stone catalog. -/
def demoSettings : FixedSettings :=
  { goldRate24k := JsNum.num 10000
    goldRates :=
      [⟨"24", "Net Wt (24)", JsNum.num 10000⟩,
       ⟨"22", "Net Wt (22)", JsNum.num 9200⟩,
       ⟨"18", "Net Wt (18)", JsNum.num 7600⟩,
       ⟨"14", "Net Wt (14)", JsNum.num 6000⟩]
    purityPercentages :=
      [("24", JsNum.num 100), ("22", JsNum.num 92),
       ("18", JsNum.num 76), ("14", JsNum.num 60)]
    makingChargeFlat := JsNum.num 4000
    makingChargePerGram := JsNum.num 1800
    gstRate := JsNum.num (3/100)
    stoneTypes := [] }

/-- A stored record whose purity label "9" appears in no gold-rate
table. -/
def demoRecord9 : ProductRecord :=
  { id := "r1"
    created_at := ""
    product_name := "pendant"
    product_image_url := none
    purity := "9"
    net_gold_weight := JsNum.num 1
    stones := [] }

/-- Claim C1 counterexample: purity "9" matches no entry of the settings
gold-rate table (nor of purityPercentages), yet the history repricing
path prices its gold at the full 24k rate 10000 — goldRate and goldCost
are 10000, not 0, so the gold rate used is not 0 in every pricing path
of the program. -/
theorem goldRate_miss_cex :
    demoSettings.goldRates.find?
      (fun g => g.purity == demoRecord9.purity) = none ∧
    rlookup demoSettings.purityPercentages demoRecord9.purity = none ∧
    (computePricing demoRecord9 demoSettings).goldRate = JsNum.num 10000 ∧
    (computePricing demoRecord9 demoSettings).goldCost = JsNum.num 10000 ∧
    JsNum.num 10000 ≠ 0 := by
  refine ⟨by simp [demoSettings, demoRecord9], by simp [demoSettings, demoRecord9, rlookup], ?_, ?_, by simp⟩
  · simp [computePricing, demoSettings, demoRecord9, rlookup]
    norm_num
  · simp [computePricing, demoSettings, demoRecord9, rlookup]
    norm_num

/-- Claim C1 amended: in the live calculator the gold-rate table
consulted is the derived table over the fixed purity list
GOLD_PURITIES; a selected purity with no entry there yields
goldRateValue 0 and goldCost 0, silently.  The history repricing path
performs no rate-table lookup at all: a purity absent from
purityPercentages falls back to 100 percent and prices gold at
round(goldRate24k), not 0. -/
theorem goldRate_miss_amended :
    (∀ (settings : FixedSettings) (purity : String),
      (calculatedGoldRates settings).find? (fun g => g.purity == purity)
        = none →
      goldRateValue settings purity = 0 ∧
      ∀ w : ℚ, calcGoldCost settings purity (JsNum.num w) = 0) ∧
    (∀ (settings : FixedSettings) (p : ProductRecord),
      rlookup settings.purityPercentages p.purity = none →
      (computePricing p settings).goldRate = jround settings.goldRate24k ∧
      (computePricing p settings).goldCost =
        p.net_gold_weight * jround settings.goldRate24k) := by
  constructor
  · intro settings purity h
    have hz : goldRateValue settings purity = 0 := by
      simp [goldRateValue, h]
    refine ⟨hz, ?_⟩
    intro w
    simp [calcGoldCost, hz]
  · intro settings p h
    cases hg24 : settings.goldRate24k with
    | nan =>
      constructor <;> simp [computePricing, h, hg24]
    | num y =>
      constructor <;> simp [computePricing, h, hg24]

/-- Witness for claim C1 amended, at the concrete settings and record:
the calculator rates purity "9" at 0, while the history repricing rates
it at round(goldRate24k). -/
theorem goldRate_miss_amended_witness :
    goldRateValue demoSettings "9" = 0 ∧
    calcGoldCost demoSettings "9" (JsNum.num 1) = 0 ∧
    (computePricing demoRecord9 demoSettings).goldRate =
      jround demoSettings.goldRate24k := by
  have h1 := goldRate_miss_amended.1 demoSettings "9"
    (by simp [calculatedGoldRates, GOLD_PURITIES])
  have h2 := goldRate_miss_amended.2 demoSettings demoRecord9
    (by simp [demoSettings, demoRecord9, rlookup])
  exact ⟨h1.1, h1.2 1, h2.1⟩

-- ─── Claim C2 ───────────────────────────────────────────────────────────────

/-- Claim C2 counterexample: for raw inputs with purity "9" (1 gram, no
stones) the live calculator totals 4120 (gold rated 0, flat making fee
4000, 3 percent GST) while repricing the stored record totals 14420
(gold rated at the full 24k rate) — the two pricing paths disagree on
the same raw inputs and settings. -/
theorem calculator_history_total_cex :
    calcTotal demoSettings "9" (JsNum.num 1) [] = JsNum.num 4120 ∧
    (computePricing (recordOfInputs "9" (JsNum.num 1) []) demoSettings).total
      = JsNum.num 14420 ∧
    JsNum.num 4120 ≠ JsNum.num 14420 := by
  refine ⟨?_, ?_, by simp⟩
  · simp [calcTotal, calcGst, calcSubTotal, calcGoldPlusMaking, calcGoldCost,
      calcMakingCost, calcTotalStoneCost, calcStoneDetails, goldRateValue,
      calculatedGoldRates, GOLD_PURITIES, calculateMakingCharge,
      demoSettings, jle, jlt]
    norm_num
  · simp [computePricing, recordOfInputs, demoSettings, rlookup,
      calculateMakingCharge, jle, jlt]
    norm_num

/-- Claim C2 amended: for every settings value and raw inputs whose
purity is one of the calculator's selectable purities ("24", "22",
"18", "14" — the only purities the calculator can store), recomputing
the stored record's breakdown yields exactly the calculator's total:
the total is a pure function of (settings, raw input), identical across
the calculator path and the history repricing path.  (For other purity
labels the paths differ, per the counterexample.) -/
theorem calculator_history_total_amended
    (settings : FixedSettings) (purity : String) (w : JsNum)
    (ds : List DiamondEntry) (hmem : purity ∈ GOLD_PURITIES) :
    calcTotal settings purity w ds =
      (computePricing (recordOfInputs purity w ds) settings).total := by
  have hrate : goldRateValue settings purity =
      jround (settings.goldRate24k *
        jdiv ((rlookup settings.purityPercentages purity).getD 100) 100) := by
    simp only [GOLD_PURITIES, List.mem_cons, List.not_mem_nil,
      or_false] at hmem
    rcases hmem with rfl | rfl | rfl | rfl <;>
      simp [goldRateValue, calculatedGoldRates, GOLD_PURITIES]
  simp [calcTotal, calcGst, calcSubTotal, calcGoldPlusMaking,
    calcGoldCost, calcMakingCost, calcTotalStoneCost, calcStoneDetails,
    getStoneSlabs, computePricing, recordOfInputs, hrate, List.foldl_map]

/-- Witness for claim C2 amended at purity "22", 1 gram, no stones: the
calculator total and the repriced stored-record total coincide. -/
theorem calculator_history_total_amended_witness :
    calcTotal demoSettings "22" (JsNum.num 1) [] =
      (computePricing (recordOfInputs "22" (JsNum.num 1) [])
        demoSettings).total :=
  calculator_history_total_amended demoSettings "22" (JsNum.num 1) []
    (by simp [GOLD_PURITIES])

-- ─── Claim C5 ───────────────────────────────────────────────────────────────

/-- Resolving against an empty slab list always yields none. -/
theorem resolveAutoSlab_nil (w q : JsNum) : resolveAutoSlab [] w q = none := by
  unfold resolveAutoSlab
  rw [List.isEmpty_nil, Bool.or_true]
  rfl

/-- Claim C5: each priced stone entry costs (resolved slab's
price-per-carat, or 0 when the stone-type reference dangles or no slab
matches) multiplied by the entry's total weight, and is never
additionally multiplied by quantity — quantity enters the cost only
through the per-piece weight inside slab resolution; every lookup miss
contributes 0 without raising.  Stated for the history repricing path
(computePricing) and mirrored for the live calculator path
(calcStoneDetails). -/
theorem stoneEntry_cost_correct :
    (∀ (settings : FixedSettings) (p : ProductRecord) (i : ℕ)
      (h1 : i < p.stones.length)
      (h2 : i < (computePricing p settings).stoneDetails.length),
      ((computePricing p settings).stoneDetails[i]).cost =
        ((resolveAutoSlab (getStoneSlabs settings (p.stones[i]).stoneTypeId)
            (p.stones[i]).weight (p.stones[i]).quantity).map
          Slab.pricePerCarat).getD 0 * (p.stones[i]).weight ∧
      ((computePricing p settings).stoneDetails[i]).pricePerCarat =
        ((resolveAutoSlab (getStoneSlabs settings (p.stones[i]).stoneTypeId)
            (p.stones[i]).weight (p.stones[i]).quantity).map
          Slab.pricePerCarat).getD 0) ∧
    (∀ (settings : FixedSettings) (p : ProductRecord) (i : ℕ)
      (h1 : i < p.stones.length)
      (h2 : i < (computePricing p settings).stoneDetails.length),
      settings.stoneTypes.find?
        (fun st => st.stoneId == (p.stones[i]).stoneTypeId) = none →
      ((computePricing p settings).stoneDetails[i]).pricePerCarat = 0 ∧
      ∀ wq : ℚ, (p.stones[i]).weight = JsNum.num wq →
        ((computePricing p settings).stoneDetails[i]).cost = 0) ∧
    (∀ (settings : FixedSettings) (p : ProductRecord) (i : ℕ)
      (h1 : i < p.stones.length)
      (h2 : i < (computePricing p settings).stoneDetails.length),
      resolveAutoSlab (getStoneSlabs settings (p.stones[i]).stoneTypeId)
        (p.stones[i]).weight (p.stones[i]).quantity = none →
      ((computePricing p settings).stoneDetails[i]).pricePerCarat = 0 ∧
      ∀ wq : ℚ, (p.stones[i]).weight = JsNum.num wq →
        ((computePricing p settings).stoneDetails[i]).cost = 0) ∧
    (∀ (settings : FixedSettings) (ds : List DiamondEntry) (i : ℕ)
      (h1 : i < ds.length)
      (h2 : i < (calcStoneDetails settings ds).length),
      ((calcStoneDetails settings ds)[i]).totalCost =
        ((resolveAutoSlab (getStoneSlabs settings (ds[i]).stoneTypeId)
            (ds[i]).weight (ds[i]).quantity).map Slab.pricePerCarat).getD 0
          * (ds[i]).weight) := by
  refine ⟨?_, ?_, ?_, ?_⟩
  · intro settings p i h1 h2
    constructor <;> simp [computePricing, getStoneSlabs, List.getElem_map]
  · intro settings p i h1 h2 hdangle
    have hslabs : getStoneSlabs settings (p.stones[i]).stoneTypeId = [] := by
      simp [getStoneSlabs, hdangle]
    constructor
    · simp [computePricing, List.getElem_map, getStoneSlabs, hdangle,
        resolveAutoSlab_nil]
    · intro wq hwq
      simp [computePricing, List.getElem_map, getStoneSlabs, hdangle,
        resolveAutoSlab_nil, hwq]
  · intro settings p i h1 h2 hnone
    rw [getStoneSlabs] at hnone
    constructor
    · simp [computePricing, List.getElem_map, hnone]
    · intro wq hwq
      rw [hwq] at hnone
      simp [computePricing, List.getElem_map, hnone, hwq]
  · intro settings ds i h1 h2
    simp [calcStoneDetails, List.getElem_map]

/-- A stone type with two slab tiers, used to instantiate the C5
theorem. -/
def demoStoneType : StoneType :=
  { stoneId := "LGD1"
    name := "Round"
    type := "Diamond"
    clarity := "VVS/EF"
    color := ""
    slabs := [sampleSlabA, sampleSlabB] }

/-- Settings with a one-entry stone catalog, used to instantiate the C5
theorem. -/
def demoSettingsStones : FixedSettings :=
  { demoSettings with stoneTypes := [demoStoneType] }

/-- A stored record with one stone entry referencing the catalog and one
dangling entry. -/
def demoRecordStones : ProductRecord :=
  { id := "r2"
    created_at := ""
    product_name := "ring"
    product_image_url := none
    purity := "22"
    net_gold_weight := JsNum.num 3
    stones :=
      [{ stoneTypeId := "LGD1", name := "Round",
         weight := JsNum.num (1/2), quantity := JsNum.num 1 },
       { stoneTypeId := "GONE", name := "Gone",
         weight := JsNum.num (1/2), quantity := JsNum.num 1 }] }

/-- Witness for claim C5: entry 0 is priced from its resolved slab times
its weight; the dangling entry 1 costs 0. -/
theorem stoneEntry_cost_correct_witness :
    ((computePricing demoRecordStones demoSettingsStones).stoneDetails.get
        ⟨0, by simp [computePricing, demoRecordStones]⟩).cost =
      ((resolveAutoSlab (getStoneSlabs demoSettingsStones "LGD1")
          (JsNum.num (1/2)) (JsNum.num 1)).map Slab.pricePerCarat).getD 0 *
        JsNum.num (1/2) ∧
    ((computePricing demoRecordStones demoSettingsStones).stoneDetails.get
        ⟨1, by simp [computePricing, demoRecordStones]⟩).cost = 0 := by
  constructor
  · have h := (stoneEntry_cost_correct.1 demoSettingsStones demoRecordStones 0
      (by simp [demoRecordStones])
      (by simp [computePricing, demoRecordStones])).1
    simpa [demoRecordStones] using h
  · have h := ((stoneEntry_cost_correct.2.1 demoSettingsStones demoRecordStones
      1 (by simp [demoRecordStones])
      (by simp [computePricing, demoRecordStones])
      (by simp [demoSettingsStones, demoStoneType, demoRecordStones])).2
      (1/2) (by simp [demoRecordStones]))
    simpa using h

-- ─── Claim C6 ───────────────────────────────────────────────────────────────

/-- The slabs-table row of the C6 counterexample: a non-empty stone id
with an unparseable fromweight cell. -/
def badSlabRow : Row := [("stoneid", "X"), ("fromweight", "abc")]

/-- Claim C6 counterexample: an unparseable numeric cell does not
default to 0 — Number("abc") is NaN, so the appended slab's fromWeight
is NaN (the row is still appended, missing columns still default
to 0). -/
theorem parseSlabsTab_nan_cex :
    parseSlabsTab [badSlabRow] =
      [("X", [⟨"", JsNum.nan, 0, 0, 0⟩])] ∧
    JsNum.nan ≠ (0 : JsNum) := by
  constructor
  · decide
  · decide

/-- Does a slabs-table row have the non-empty trimmed stone id that
makes the parser append a slab for it? -/
def rowHasStone (r : Row) : Bool :=
  !((((r.get? "stoneid").map strTrim).getD "") == "")

/-- Total number of slabs across a parsed slabs-by-stone map. -/
def slabCount (m : List (String × List Slab)) : ℕ :=
  (m.map (fun p => p.2.length)).sum

/-- Appending one slab raises the total slab count by one. -/
theorem pushSlab_count (m : List (String × List Slab)) (k : String)
    (sl : Slab) : slabCount (pushSlab m k sl) = slabCount m + 1 := by
  induction m with
  | nil => rfl
  | cons p rest ih =>
    by_cases h : (p.1 == k) = true
    · simp [pushSlab, h, slabCount]
      omega
    · rw [Bool.not_eq_true] at h
      simp [pushSlab, h, slabCount] at ih ⊢
      omega

/-- The slabs parser never aborts: starting from any accumulator, each
row with a non-empty stone id appends exactly one slab and every other
row is skipped. -/
theorem parseSlabsTab_count_go (rows : List Row)
    (acc : List (String × List Slab)) :
    slabCount (rows.foldl (fun acc r =>
      match (r.get? "stoneid").map strTrim with
      | none => acc
      | some stoneId =>
        if stoneId = "" then acc else pushSlab acc stoneId (slabOfRow r)) acc)
      = slabCount acc + rows.countP rowHasStone := by
  induction rows generalizing acc with
  | nil => simp
  | cons r rest ih =>
    rw [List.foldl_cons, List.countP_cons]
    cases hs : (r.get? "stoneid").map strTrim with
    | none =>
      have hp : rowHasStone r = false := by
        cases hg : r.get? "stoneid" with
        | none => simp [rowHasStone, hg]
        | some s => simp [hg] at hs
      simp only [hs]
      rw [ih, hp]
      simp
    | some stoneId =>
      simp only [hs]
      by_cases hempty : stoneId = ""
      · subst hempty
        rw [if_pos rfl]
        have hp : rowHasStone r = false := by
          simp [rowHasStone, hs]
        rw [ih, hp]
        simp
      · rw [if_neg hempty]
        have hp : rowHasStone r = true := by
          simp [rowHasStone, hs, hempty]
        rw [ih, pushSlab_count, hp]
        simp
        omega

/-- Claim C6 amended: for every slabs-table row, each numeric field of
the appended slab defaults to 0 when the column is missing or the cell
is empty, but a non-empty unparseable cell yields NaN, not 0 (per the
counterexample); no row ever aborts the parse — exactly the rows with a
non-empty trimmed stone id append one slab each. -/
theorem parseSlabsTab_defaults :
    (∀ r : Row,
      ((r.get? "fromweight" = none ∨ r.get? "fromweight" = some "") →
        (slabOfRow r).fromWeight = 0) ∧
      ((r.get? "toweight" = none ∨ r.get? "toweight" = some "") →
        (slabOfRow r).toWeight = 0) ∧
      ((r.get? "pricepercarat" = none ∨ r.get? "pricepercarat" = some "") →
        (slabOfRow r).pricePerCarat = 0) ∧
      ((r.get? "discount" = none ∨ r.get? "discount" = some "") →
        (slabOfRow r).discount = 0)) ∧
    (∀ rows : List Row,
      slabCount (parseSlabsTab rows) = rows.countP rowHasStone) := by
  constructor
  · intro r
    refine ⟨?_, ?_, ?_, ?_⟩ <;>
      · rintro (h | h) <;> simp [slabOfRow, h] <;> decide
  · intro rows
    simpa [parseSlabsTab, slabCount] using parseSlabsTab_count_go rows []

/-- Witness for claim C6: a missing column and an empty cell both give
field value 0, and a two-row table with one stone-id row parses to
exactly one slab. -/
theorem parseSlabsTab_defaults_witness :
    (slabOfRow [("stoneid", "X")]).fromWeight = 0 ∧
    (slabOfRow [("stoneid", "X"), ("toweight", "")]).toWeight = 0 ∧
    slabCount (parseSlabsTab [[("stoneid", "X")], [("name", "y")]]) = 1 := by
  refine ⟨?_, ?_, ?_⟩
  · exact (parseSlabsTab_defaults.1 [("stoneid", "X")]).1
      (Or.inl (by decide))
  · exact (parseSlabsTab_defaults.1 [("stoneid", "X"), ("toweight", "")]).2.1
      (Or.inr (by decide))
  · rw [parseSlabsTab_defaults.2 [[("stoneid", "X")], [("name", "y")]]]
    decide

-- ─── Claim C7 ───────────────────────────────────────────────────────────────

/-- Assigning one key leaves lookups of every other key unchanged. -/
theorem rset_lookup_ne {α : Type} (m : List (String × α)) (n N : String)
    (hne : n ≠ N) (v : α) : rlookup (rset m n v) N = rlookup m N := by
  have hb : (n == N) = false := by simpa using hne
  induction m with
  | nil => simp [rset, rlookup, List.find?, hb]
  | cons p rest ih =>
    by_cases h : (p.1 == n) = true
    · have hp : p.1 = n := by simpa using h
      simp [rset, h, rlookup, List.find?, hb, hp]
    · rw [Bool.not_eq_true] at h
      simp only [rset, h]
      rw [if_neg (by simp)]
      by_cases hN : (p.1 == N) = true
      · simp [rlookup, List.find?, hN]
      · rw [Bool.not_eq_true] at hN
        simpa [rlookup, List.find?, hN] using ih

/-- A key recognized as `purity_<digits>` is literally `purity_`
followed by the captured digit string. -/
theorem purityKeyOf_append (k n : String) (h : purityKeyOf k = some n) :
    k = "purity_" ++ n := by
  unfold purityKeyOf at h
  by_cases h7 : k.toList.take 7 = "purity_".toList
  · rw [if_pos h7] at h
    by_cases hd :
        (!(k.toList.drop 7).isEmpty && (k.toList.drop 7).all Char.isDigit)
          = true
    · rw [if_pos hd] at h
      injection h with h
      subst h
      apply String.ext
      show k.data = "purity_".data ++ (String.mk (k.toList.drop 7)).data
      have hlist : k.toList = k.data := rfl
      rw [hlist] at h7
      calc k.data = k.data.take 7 ++ k.data.drop 7 :=
            (List.take_append_drop 7 k.data).symm
        _ = "purity_".data ++ (String.mk (k.toList.drop 7)).data := by
            rw [h7]
            rfl
    · rw [if_neg (by simpa using hd)] at h
      exact absurd h (by simp)
  · rw [if_neg h7] at h
    exact absurd h (by simp)

/-- The purity-override fold only touches the keys captured from
`purity_<N>` entries of the rates map: every other label's lookup is
preserved. -/
theorem purityFold_lookup_ne (m : List (String × String)) (N : String)
    (pp : List (String × JsNum))
    (hm : ∀ p ∈ m, ∀ n, purityKeyOf p.1 = some n → n ≠ N) :
    rlookup (m.foldl (fun pp p =>
      match purityKeyOf p.1 with
      | some n => rset pp n (jsNumber p.2)
      | none => pp) pp) N = rlookup pp N := by
  induction m generalizing pp with
  | nil => rfl
  | cons p rest ih =>
    rw [List.foldl_cons]
    cases hk : purityKeyOf p.1 with
    | none =>
      simp only [hk]
      exact ih pp (fun q hq => hm q (by simp [hq]))
    | some n =>
      simp only [hk]
      rw [ih _ (fun q hq => hm q (by simp [hq]))]
      exact rset_lookup_ne pp n N (hm p (by simp) n hk) (jsNumber p.2)

/-- If a key is absent from an object, no entry carries that key. -/
theorem rlookup_eq_none {α : Type} {m : List (String × α)} {k : String}
    (h : rlookup m k = none) : ∀ p ∈ m, p.1 ≠ k := by
  intro p hp hk
  rw [rlookup, Option.map_eq_none'] at h
  rw [List.find?_eq_none] at h
  exact absurd (by simp [hk]) (h p hp)

/-- Concrete current settings for the C7 counterexample: the user's 22k
percentage is 50, differing from the built-in default 92. -/
def c7Settings : FixedSettings :=
  { demoSettings with purityPercentages :=
      [("24", JsNum.num 100), ("22", JsNum.num 50),
       ("18", JsNum.num 76), ("14", JsNum.num 60)] }

/-- Rates rows of the C7 counterexample: only `purity_24` is present. -/
def c7RatesRows : List Row := [[("key", "purity_24"), ("value", "99")]]

/-- Claim C7 counterexample: the key `purity_22` is absent from the
rates table, yet the merged purityPercentages entry for "22" is the
built-in default 92, not the current settings' 50 — an absent purity
key does not leave the current value untouched once any purity key is
present. -/
theorem ratesOverlay_cex :
    rlookup (ratesKeyValueMap c7RatesRows) "purity_22" = none ∧
    rlookup c7Settings.purityPercentages "22" = some (JsNum.num 50) ∧
    rlookup ((assembleSettings c7Settings (parseRatesTab c7RatesRows) []
      []).purityPercentages) "22" = some (JsNum.num 92) ∧
    JsNum.num 92 ≠ JsNum.num 50 := by
  refine ⟨by decide, by decide, by decide, by decide⟩

/-- Claim C7 amended: a recognized scalar key absent from the rates
table leaves that settings field unchanged in the merged result, and
when the table has no purity key at all the merged purityPercentages is
the current one unchanged; but when at least one purity key is present
the purity map is rebuilt from the built-in defaults, so a label N with
`purity_<N>` absent reads the DEFAULT percentage for N, not the current
settings' value. -/
theorem ratesOverlay_frame :
    (∀ (s : FixedSettings) (rows : List Row) (st : List StoneRow)
      (sl : List (String × List Slab)),
      (rlookup (ratesKeyValueMap rows) "goldRate24k" = none →
        (assembleSettings s (parseRatesTab rows) st sl).goldRate24k =
          s.goldRate24k) ∧
      (rlookup (ratesKeyValueMap rows) "makingChargeFlat" = none →
        (assembleSettings s (parseRatesTab rows) st sl).makingChargeFlat =
          s.makingChargeFlat) ∧
      (rlookup (ratesKeyValueMap rows) "makingChargePerGram" = none →
        (assembleSettings s (parseRatesTab rows) st sl).makingChargePerGram =
          s.makingChargePerGram) ∧
      (rlookup (ratesKeyValueMap rows) "gstRate" = none →
        (assembleSettings s (parseRatesTab rows) st sl).gstRate =
          s.gstRate)) ∧
    (∀ (s : FixedSettings) (rows : List Row) (st : List StoneRow)
      (sl : List (String × List Slab)),
      (∀ p ∈ ratesKeyValueMap rows, purityKeyOf p.1 = none) →
      (assembleSettings s (parseRatesTab rows) st sl).purityPercentages =
        s.purityPercentages) ∧
    (∀ (s : FixedSettings) (rows : List Row) (st : List StoneRow)
      (sl : List (String × List Slab)) (N : String),
      rlookup (ratesKeyValueMap rows) ("purity_" ++ N) = none →
      ((ratesKeyValueMap rows).any
        (fun p => (purityKeyOf p.1).isSome)) = true →
      rlookup ((assembleSettings s (parseRatesTab rows) st
          sl).purityPercentages) N =
        rlookup DEFAULT_PURITY_PERCENTAGES N) := by
  refine ⟨?_, ?_, ?_⟩
  · intro s rows st sl
    refine ⟨?_, ?_, ?_, ?_⟩ <;>
      · intro h
        simp [assembleSettings, parseRatesTab, h]
  · intro s rows st sl hnone
    have hap : ((ratesKeyValueMap rows).any
        (fun p => (purityKeyOf p.1).isSome)) = false := by
      rw [List.any_eq_false]
      intro p hp
      simp [hnone p hp]
    simp [assembleSettings, parseRatesTab, hap]
  · intro s rows st sl N habs hsome
    have hne : ∀ p ∈ ratesKeyValueMap rows, ∀ n,
        purityKeyOf p.1 = some n → n ≠ N := by
      intro p hp n hk hEq
      subst hEq
      exact rlookup_eq_none habs p hp (purityKeyOf_append p.1 n hk)
    have hfold := purityFold_lookup_ne (ratesKeyValueMap rows) N
      DEFAULT_PURITY_PERCENTAGES hne
    simp only [assembleSettings, parseRatesTab, hsome, if_true]
    simpa using hfold

/-- Witness for claim C7 amended: an empty rates table leaves
goldRate24k and purityPercentages unchanged, and with only `purity_24`
present the absent label "18" reads its default percentage. -/
theorem ratesOverlay_frame_witness :
    (assembleSettings demoSettings (parseRatesTab []) [] []).goldRate24k =
      demoSettings.goldRate24k ∧
    (assembleSettings demoSettings (parseRatesTab []) [] []).purityPercentages
      = demoSettings.purityPercentages ∧
    rlookup ((assembleSettings demoSettings (parseRatesTab c7RatesRows) []
        []).purityPercentages) "18" =
      rlookup DEFAULT_PURITY_PERCENTAGES "18" :=
  ⟨(ratesOverlay_frame.1 demoSettings [] [] []).1 (by decide),
   ratesOverlay_frame.2.1 demoSettings [] [] [] (by decide),
   ratesOverlay_frame.2.2 demoSettings c7RatesRows [] [] "18" (by decide)
     (by decide)⟩

-- ─── Claim C8 ───────────────────────────────────────────────────────────────

/-- Claim C8: when the stones table parses to zero rows, the merged
settings keep the existing stone catalog unchanged, whatever the rates
and slabs parts contain — a sync never replaces a populated catalog
with an empty one. -/
theorem stoneCatalog_preserved (s : FixedSettings) (rp : RatesPart)
    (stRows : List Row) (sl : List (String × List Slab))
    (h : parseStonesTab stRows = []) :
    (assembleSettings s rp (parseStonesTab stRows) sl).stoneTypes =
      s.stoneTypes := by
  rw [h]
  simp [assembleSettings]

/-- Witness for claim C8: a stones table whose only row lacks a stone id
parses to zero rows and leaves the populated demo catalog unchanged. -/
theorem stoneCatalog_preserved_witness :
    (assembleSettings demoSettingsStones (parseRatesTab c7RatesRows)
      (parseStonesTab [[("name", "x")]]) []).stoneTypes =
      demoSettingsStones.stoneTypes :=
  stoneCatalog_preserved demoSettingsStones (parseRatesTab c7RatesRows)
    [[("name", "x")]] [] (by decide)

-- ─── Claim C9 ───────────────────────────────────────────────────────────────

/-- Claim C9: the parse-and-merge step is idempotent — merging the same
parsed rates, stones and slabs parts twice produces exactly the settings
obtained from merging them once (no drift from repeated syncs with
identical payloads). -/
theorem assembleSettings_idempotent (s : FixedSettings) (rp : RatesPart)
    (st : List StoneRow) (sl : List (String × List Slab)) :
    assembleSettings (assembleSettings s rp st sl) rp st sl =
      assembleSettings s rp st sl := by
  simp only [assembleSettings, FixedSettings.mk.injEq]
  refine ⟨?_, ?_, ?_, ?_, ?_, ?_, ?_⟩
  · cases rp.goldRate24k <;> simp
  · rw [List.map_map]
    apply List.map_congr_left
    intro gr hgr
    cases hg : rp.goldRate24k <;> cases hp : rp.purityPercentages <;> simp
  · cases rp.purityPercentages <;> simp
  · cases rp.makingChargeFlat <;> simp
  · cases rp.makingChargePerGram <;> simp
  · cases rp.gstRate <;> simp
  · cases st with
    | nil => simp
    | cons a t => simp

-- ─── Claim C10 ──────────────────────────────────────────────────────────────

/-- Assigning a key makes its lookup return the assigned value. -/
theorem rset_lookup_self {α : Type} (m : List (String × α)) (k : String)
    (v : α) : rlookup (rset m k v) k = some v := by
  induction m with
  | nil => simp [rset, rlookup, List.find?]
  | cons p rest ih =>
    by_cases h : (p.1 == k) = true
    · simp [rset, h, rlookup, List.find?]
    · rw [Bool.not_eq_true] at h
      simp only [rset, h]
      rw [if_neg (by simp)]
      simpa [rlookup, List.find?, h] using ih

/-- The keys after an assignment are the assigned key plus the old
keys. -/
theorem rset_keys_mem {α : Type} (m : List (String × α)) (k : String)
    (v : α) (a : String) :
    a ∈ (rset m k v).map Prod.fst ↔ a = k ∨ a ∈ m.map Prod.fst := by
  induction m with
  | nil => simp [rset]
  | cons p rest ih =>
    by_cases hk : (p.1 == k) = true
    · have hp : p.1 = k := by simpa using hk
      simp [rset, hk, hp]
    · rw [Bool.not_eq_true] at hk
      simp only [rset, hk]
      rw [if_neg (by simp)]
      simp only [List.map_cons, List.mem_cons, ih]
      tauto

/-- Object assignment keeps the keys without duplicates. -/
theorem rset_keys_nodup {α : Type} (m : List (String × α)) (k : String)
    (v : α) (h : (m.map Prod.fst).Nodup) :
    ((rset m k v).map Prod.fst).Nodup := by
  induction m with
  | nil => simp [rset]
  | cons p rest ih =>
    by_cases hk : (p.1 == k) = true
    · have hp : p.1 = k := by simpa using hk
      simp only [rset, hk, if_true]
      simp only [List.map_cons, List.nodup_cons] at h ⊢
      rw [hp] at h
      exact h
    · rw [Bool.not_eq_true] at hk
      simp only [rset, hk]
      rw [if_neg (by simp)]
      simp only [List.map_cons, List.nodup_cons] at h ⊢
      refine ⟨?_, ih h.2⟩
      intro hmem
      rcases (rset_keys_mem rest k v p.1).mp hmem with hpk | hmem2
      · exact absurd hpk (by simpa using hk)
      · exact h.1 hmem2

/-- The rates key→value map never holds two entries for one key. -/
theorem ratesKeyValueMap_keys_nodup (rows : List Row) :
    ((ratesKeyValueMap rows).map Prod.fst).Nodup := by
  suffices h : ∀ acc : List (String × String), (acc.map Prod.fst).Nodup →
      ((rows.foldl (fun m row =>
        match row.get? "key", row.get? "value" with
        | some k, some v =>
          if k = "" then m else rset m (strTrim k) (strTrim v)
        | _, _ => m) acc).map Prod.fst).Nodup by
    exact h [] (by simp)
  induction rows with
  | nil => exact fun acc h => h
  | cons r rest ih =>
    intro acc hacc
    rw [List.foldl_cons]
    apply ih
    cases hk : r.get? "key" with
    | none => simpa [hk] using hacc
    | some k =>
      cases hv : r.get? "value" with
      | none => simpa [hk, hv] using hacc
      | some v =>
        simp only [hk, hv]
        by_cases he : k = ""
        · simpa [he] using hacc
        · rw [if_neg he]
          exact rset_keys_nodup acc (strTrim k) (strTrim v) hacc

/-- A nonempty all-digit label prefixed with `purity_` is recognized by
the purity-key pattern and captures exactly that label. -/
theorem purityKeyOf_purity_append (N : String) (hne : N ≠ "")
    (hdig : N.toList.all Char.isDigit = true) :
    purityKeyOf ("purity_" ++ N) = some N := by
  obtain ⟨l⟩ := N
  have hlist : ("purity_" ++ String.mk l).toList = "purity_".toList ++ l :=
    rfl
  have hl : l ≠ [] := by
    intro hnil
    exact hne (by rw [hnil])
  simp only [purityKeyOf, hlist]
  rw [show (7 : ℕ) = "purity_".toList.length from rfl, List.take_left,
    List.drop_left]
  rw [if_pos rfl]
  have hcond : (!(l.isEmpty) && l.all Char.isDigit) = true := by
    have hie : l.isEmpty = false := isEmpty_false_of_ne_nil hl
    rw [hie]
    simpa using hdig
  rw [if_pos hcond]

/-- If the rates map holds a `purity_<N>` entry with value v, the
purity-override fold ends with label N bound to Number(v). -/
theorem purityFold_lookup_set (N v : String)
    (hkey : purityKeyOf ("purity_" ++ N) = some N) :
    ∀ (m : List (String × String)) (pp : List (String × JsNum)),
      (m.map Prod.fst).Nodup →
      rlookup m ("purity_" ++ N) = some v →
      rlookup (m.foldl (fun pp p =>
        match purityKeyOf p.1 with
        | some n => rset pp n (jsNumber p.2)
        | none => pp) pp) N = some (jsNumber v) := by
  intro m
  induction m with
  | nil =>
    intro pp _ hfind
    simp [rlookup, List.find?] at hfind
  | cons p rest ih =>
    intro pp hnodup hfind
    rw [List.foldl_cons]
    by_cases hp : (p.1 == "purity_" ++ N) = true
    · have hp1 : p.1 = "purity_" ++ N := by simpa using hp
      have hv : p.2 = v := by
        simpa [rlookup, List.find?, hp] using hfind
      have hstep : (match purityKeyOf p.1 with
          | some n => rset pp n (jsNumber p.2)
          | none => pp) = rset pp N (jsNumber v) := by
        rw [hp1, hkey, hv]
      rw [hstep]
      have hne2 : ∀ q ∈ rest, ∀ n, purityKeyOf q.1 = some n → n ≠ N := by
        intro q hq n hqk hEq
        subst hEq
        have hq1 : q.1 = "purity_" ++ n := purityKeyOf_append q.1 n hqk
        simp only [List.map_cons, List.nodup_cons] at hnodup
        exact hnodup.1 (by
          rw [hp1, ← hq1]
          exact List.mem_map_of_mem Prod.fst hq)
      rw [purityFold_lookup_ne rest N _ hne2]
      exact rset_lookup_self pp N (jsNumber v)
    · rw [Bool.not_eq_true] at hp
      have hfind2 : rlookup rest ("purity_" ++ N) = some v := by
        simpa [rlookup, List.find?, hp] using hfind
      have hnodup2 : (rest.map Prod.fst).Nodup := by
        simp only [List.map_cons, List.nodup_cons] at hnodup
        exact hnodup.2
      cases hk : purityKeyOf p.1 with
      | none =>
        simp only [hk]
        exact ih pp hnodup2 hfind2
      | some n =>
        simp only [hk]
        exact ih (rset pp n (jsNumber p.2)) hnodup2 hfind2

/-- Claim C10: a sync merge preserves the goldRates array's length,
order, purity labels and display labels — only each entry's rate is
recomputed, as round(effective goldRate24k times effective percentage
over 100) with a 100-percent fallback for an absent percentage; a
`purity_<N>` rates key updates the merged purityPercentages entry for N
to its parsed value (also for a label N not already present in
goldRates), but never adds a new goldRates entry. -/
theorem goldRates_frame :
    (∀ (s : FixedSettings) (rp : RatesPart) (st : List StoneRow)
      (sl : List (String × List Slab)),
      (assembleSettings s rp st sl).goldRates.map
          (fun g => (g.purity, g.label)) =
        s.goldRates.map (fun g => (g.purity, g.label))) ∧
    (∀ (s : FixedSettings) (rp : RatesPart) (st : List StoneRow)
      (sl : List (String × List Slab)) (i : ℕ)
      (h1 : i < s.goldRates.length)
      (h2 : i < (assembleSettings s rp st sl).goldRates.length),
      ((assembleSettings s rp st sl).goldRates.get ⟨i, h2⟩).rate =
        jround ((rp.goldRate24k.getD s.goldRate24k) *
          jdiv ((rlookup (rp.purityPercentages.getD s.purityPercentages)
            (s.goldRates.get ⟨i, h1⟩).purity).getD 100) 100)) ∧
    (∀ (s : FixedSettings) (rp : RatesPart) (st : List StoneRow)
      (sl : List (String × List Slab)) (N : String),
      N ∉ s.goldRates.map GoldRate.purity →
      N ∉ (assembleSettings s rp st sl).goldRates.map GoldRate.purity) ∧
    (∀ (s : FixedSettings) (rows : List Row) (st : List StoneRow)
      (sl : List (String × List Slab)) (N v : String),
      N ≠ "" → N.toList.all Char.isDigit = true →
      rlookup (ratesKeyValueMap rows) ("purity_" ++ N) = some v →
      rlookup ((assembleSettings s (parseRatesTab rows) st
        sl).purityPercentages) N = some (jsNumber v)) := by
  have hpur : ∀ (s : FixedSettings) (rp : RatesPart) (st : List StoneRow)
      (sl : List (String × List Slab)),
      (assembleSettings s rp st sl).goldRates.map GoldRate.purity =
        s.goldRates.map GoldRate.purity := by
    intro s rp st sl
    simp [assembleSettings, List.map_map]
  refine ⟨?_, ?_, ?_, ?_⟩
  · intro s rp st sl
    simp [assembleSettings, List.map_map]
  · intro s rp st sl i h1 h2
    simp [assembleSettings, List.get_eq_getElem, List.getElem_map]
  · intro s rp st sl N hN hmem
    rw [hpur s rp st sl] at hmem
    exact hN hmem
  · intro s rows st sl N v hne hdig hlook
    have hkey : purityKeyOf ("purity_" ++ N) = some N :=
      purityKeyOf_purity_append N hne hdig
    have hany : ((ratesKeyValueMap rows).any
        (fun p => (purityKeyOf p.1).isSome)) = true := by
      have hlook2 := hlook
      rw [rlookup] at hlook2
      cases hf : (ratesKeyValueMap rows).find?
          (fun p => p.1 == "purity_" ++ N) with
      | none =>
        rw [hf] at hlook2
        simp at hlook2
      | some q =>
        have hqmem : q ∈ ratesKeyValueMap rows :=
          List.mem_of_find?_eq_some hf
        have hq1 : q.1 = "purity_" ++ N := by
          simpa using List.find?_some hf
        rw [List.any_eq_true]
        exact ⟨q, hqmem, by simp [hq1, hkey]⟩
    have hset := purityFold_lookup_set N v hkey (ratesKeyValueMap rows)
      DEFAULT_PURITY_PERCENTAGES (ratesKeyValueMap_keys_nodup rows) hlook
    simp only [assembleSettings, parseRatesTab, hany, if_true]
    simpa using hset

/-- Witness for claim C10: merging an empty rates table over the demo
settings keeps entry 0's purity "24" and recomputes its rate by the
formula; "9" stays absent from the table; and the present `purity_24`
key of the concrete rates rows updates the merged percentage for "24"
to Number("99"). -/
theorem goldRates_frame_witness :
    ((assembleSettings demoSettings (parseRatesTab []) [] []).goldRates.get
        ⟨0, by simp [assembleSettings, demoSettings]⟩).rate =
      jround (((parseRatesTab []).goldRate24k.getD demoSettings.goldRate24k) *
        jdiv ((rlookup ((parseRatesTab []).purityPercentages.getD
            demoSettings.purityPercentages)
          (demoSettings.goldRates.get ⟨0, by simp [demoSettings]⟩).purity).getD
          100) 100) ∧
    "9" ∉ (assembleSettings demoSettings (parseRatesTab [])
      [] []).goldRates.map GoldRate.purity ∧
    rlookup ((assembleSettings demoSettings (parseRatesTab c7RatesRows) []
      []).purityPercentages) "24" = some (jsNumber "99") := by
  refine ⟨?_, ?_, ?_⟩
  · exact goldRates_frame.2.1 demoSettings (parseRatesTab []) [] [] 0
      (by simp [demoSettings]) (by simp [assembleSettings, demoSettings])
  · exact goldRates_frame.2.2.1 demoSettings (parseRatesTab []) [] [] "9"
      (by decide)
  · exact goldRates_frame.2.2.2 demoSettings c7RatesRows [] [] "24" "99"
      (by decide) (by decide) (by decide)
